import Mathlib

/-!
Verification development for the Run Trigger Pipeline of
`apps/webapp/app/v3/services/triggerTaskV2.server.ts`.

The TypeScript service is shallowly embedded as executable Lean functions.
Conventions of the embedding:

* JavaScript `Date` values are modelled as integer timestamps in seconds
  (`Int`); calendar setters (`setDate`, `setHours`, ...) are modelled as the
  addition of the corresponding fixed number of seconds.
* Database lookups (`findUnique`) are modelled as functions into `Option`
  stored in a `Db` record; a `none` result plays the role of both `null` and
  `undefined` (the source only ever tests them for truthiness).
* Side-effectful collaborator invocations (entitlement fetch, tracing event,
  object-store upload, tag upsert, counter bump, `engine.trigger`) are
  recorded in an ordered effect list returned next to the result.
* Host services whose implementation is outside this repository slice
  (the JavaScript `Date` string parser, `generateFriendlyId`, the trace-event
  identifiers) are inputs of the model, collected in `Externals`.
-/

namespace TriggerTaskV2

/-- Environment types of the data model (spec section 3). -/
inductive EnvironmentType
  | DEVELOPMENT
  | PRODUCTION
  | STAGING
  | PREVIEW
deriving DecidableEq

/-- The authenticated environment handed to `TriggerTaskServiceV2.call`. -/
structure AuthenticatedEnvironment where
  id : String
  type : EnvironmentType
  projectId : String
  organizationId : String
deriving DecidableEq

/-- The `taskRun` projection selected by the dependency loads
(`select: id, status, taskIdentifier, rootTaskRunId, depth`). -/
structure TaskRunSelect where
  id : String
  status : String
  taskIdentifier : String
  rootTaskRunId : Option String
  depth : Nat
deriving DecidableEq

/-- A `TaskRunAttempt` row as loaded with its joined `taskRun`. -/
structure TaskRunAttempt where
  status : String
  taskRun : TaskRunSelect
deriving DecidableEq

/-- A `BatchTaskRun` row as loaded with its optional `dependentTaskAttempt`. -/
structure BatchTaskRun where
  id : String
  status : String
  dependentTaskAttempt : Option TaskRunAttempt
deriving DecidableEq

/-- A `BackgroundWorker` row (only its id is used by the service). -/
structure BackgroundWorker where
  id : String
deriving DecidableEq

/-- A `BackgroundWorkerTask` row. `queueConfigParsed` models the outcome of
`QueueOptions.optional().nullable().safeParse(task.queueConfig)`: `none` is a
parse failure, `some q` is a success whose optional/nullable payload carries
the optional queue name `q`. -/
structure BackgroundWorkerTask where
  queueConfigParsed : Option (Option String)
deriving DecidableEq

/-- The existing `Run` row returned verbatim by the idempotency gate. -/
structure ExistingRun where
  id : String
  friendlyId : String
deriving DecidableEq

/-- Reply of the entitlement collaborator `getEntitlement`. -/
structure Entitlement where
  hasAccess : Bool
deriving DecidableEq

/-- Modelled from the spec: `isFinalAttemptStatus` (imported from
`../taskStatus`, not part of the repository slice). Spec section 7: "attempt is
past its last transition"; final attempt statuses are modelled as failed,
canceled or completed. -/
def isFinalAttemptStatus (s : String) : Bool :=
  s == "FAILED" || s == "CANCELED" || s == "COMPLETED"

/-- Modelled from the spec: `isFinalRunStatus` (imported from
`../taskStatus`, not part of the repository slice). Spec section 7: "run is
canceled, completed, failed, or timed out". -/
def isFinalRunStatus (s : String) : Bool :=
  s == "CANCELED" || s == "COMPLETED" || s == "FAILED" || s == "TIMED_OUT"

/-- The constant `MAX_TAGS_PER_RUN` (imported from
`~/models/taskRunTag.server`; fixed to 8 by spec section 6). -/
def MAX_TAGS_PER_RUN : Nat := 8

/-- The `tags` request field: either a single string or a sequence. -/
inductive TagsValue
  | single (tag : String)
  | many (tags : List String)
deriving DecidableEq

/-- The `ttl` request field: seconds as a number, or a duration string. -/
inductive TtlValue
  | num (seconds : Int)
  | str (s : String)
deriving DecidableEq

/-- The `delay` request field: a `Date` (modelled as epoch seconds) or a
string to be parsed. -/
inductive DelayValue
  | date (epoch : Int)
  | str (s : String)
deriving DecidableEq

/-- An opaque JavaScript payload value, observed through the two operations
the service applies to it: `typeof payload === "string"` (the `asString`
observation) and `JSON.stringify(payload)` (which is `none` for values that
stringify to `undefined`). -/
structure PayloadValue where
  asString : Option String
  jsonStringified : Option String
deriving DecidableEq

/-- The `queue` request field (`{ name?, concurrencyLimit? }`). -/
structure QueueOptionsBody where
  name : Option String
  concurrencyLimit : Option Nat
deriving DecidableEq

/-- The `options` object of `TriggerTaskRequestBody`. -/
structure BodyOptions where
  idempotencyKey : Option String := none
  delay : Option DelayValue := none
  ttl : Option TtlValue := none
  tags : Option TagsValue := none
  metadata : Option PayloadValue := none
  metadataType : Option String := none
  payloadType : Option String := none
  concurrencyKey : Option String := none
  queue : Option QueueOptionsBody := none
  lockToVersion : Option String := none
  maxAttempts : Option Nat := none
  test : Option Bool := none
  dependentAttempt : Option String := none
  parentAttempt : Option String := none
  dependentBatch : Option String := none
  parentBatch : Option String := none
deriving DecidableEq

/-- `TriggerTaskRequestBody` (spec section 6). `context` is an opaque
passthrough the claims never inspect and is omitted. -/
structure TriggerTaskRequestBody where
  payload : PayloadValue
  options : Option BodyOptions := none
deriving DecidableEq

/-- `parentAsLinkType` service option. -/
inductive ParentAsLinkType
  | replay
  | trigger
deriving DecidableEq

/-- `TriggerTaskServiceOptions`. -/
structure TriggerTaskServiceOptions where
  idempotencyKey : Option String := none
  triggerVersion : Option String := none
  spanParentAsLink : Option Bool := none
  parentAsLinkType : Option ParentAsLinkType := none
  batchId : Option String := none
  customIcon : Option String := none
deriving DecidableEq

/-- The database state visible to the service, with one field per
`findUnique` shape used by the source. `autoCounterLast` is the counter table
owned by the `autoIncrementCounter` service and `counterLastNumber` is the
`taskRunNumberCounter` table read by the `deriveInitial` callback. -/
structure Db where
  runByIdem : String → String → String → Option ExistingRun
  attemptByFriendly : String → Option TaskRunAttempt
  batchByFriendly : String → Option BatchTaskRun
  workerByVersion : String → String → String → Option BackgroundWorker
  currentWorker : Option BackgroundWorker
  workerTaskBySlug : String → String → Option BackgroundWorkerTask
  counterLastNumber : String → String → Option Nat
  autoCounterLast : String → Option Nat
  entitlement : String → Option Entitlement
  tagRecord : String → String → Option String

/-- Inputs produced by collaborators outside the repository slice. -/
structure Externals where
  now : Int
  jsDateParse : String → Option Int
  runFriendlyId : String
  traceId : String
  spanId : String
  traceparentSpanId : Option String
  offloadThreshold : Nat

/-- The arguments of `TriggerTaskServiceV2.call`. -/
structure CallInputs where
  taskId : String
  environment : AuthenticatedEnvironment
  body : TriggerTaskRequestBody
  options : TriggerTaskServiceOptions := {}

/-- One recorded side-effectful collaborator invocation. -/
inductive Effect
  | entitlementCheck (organizationId : String)
  | uploadToObjectStore (filename : String) (data : String) (contentType : String)
  | traceEvent (taskSlug : String)
  | counterIncrement (key : String)
  | createTag (tag : String) (projectId : String)
  | engineTrigger (friendlyId : String)
deriving DecidableEq

/-- Errors surfaced by the service. -/
inductive CallError
  | outOfEntitlement
  | serviceValidation (message : String)
deriving DecidableEq

/-- An `IOPacket`. -/
structure IOPacket where
  data : Option String := none
  dataType : String
deriving DecidableEq

/-- The fully assembled run shape passed to `engine.trigger` (the run the
engine persists and returns). `context`, `traceContext` and the raw `queue`
options are opaque passthroughs the claims never inspect and are omitted. -/
structure TaskRunShape where
  number : Nat
  friendlyId : String
  idempotencyKey : Option String
  taskIdentifier : String
  payload : String
  payloadType : String
  traceId : String
  spanId : String
  parentSpanId : Option String
  lockedToVersionId : Option String
  concurrencyKey : Option String
  queueName : String
  masterQueue : String
  isTest : Bool
  delayUntil : Option Int
  queuedAt : Option Int
  maxAttempts : Option Nat
  ttl : Option String
  tags : List String
  parentTaskRunId : Option String
  rootTaskRunId : Option String
  batchId : Option String
  resumeParentOnCompletion : Bool
  depth : Nat
  metadata : Option String
  metadataType : Option String
  seedMetadata : Option String
  seedMetadataType : Option String
deriving DecidableEq

/-- Outcome of a successful call: the idempotency-gate hit or a created run. -/
inductive CallOutcome
  | existing (run : ExistingRun)
  | created (run : TaskRunShape)
deriving DecidableEq

/-! ### Duration grammar -/

/-- Decimal digit characters, as produced by JavaScript number-to-string
conversion of a digit value. -/
def digitChar (d : Nat) : Char :=
  match d with
  | 0 => '0' | 1 => '1' | 2 => '2' | 3 => '3' | 4 => '4'
  | 5 => '5' | 6 => '6' | 7 => '7' | 8 => '8' | _ => '9'

/-- The little-endian decimal digits of a natural number, computed with
enough fuel in the first argument (`n` itself always suffices since a number
has at most as many digits as its value). -/
def natToRevDigitsAux : Nat → Nat → List Char
  | _, 0 => []
  | 0, _ + 1 => []
  | fuel + 1, n + 1 => digitChar ((n + 1) % 10) :: natToRevDigitsAux fuel ((n + 1) / 10)

/-- The little-endian decimal digits of a positive natural number. -/
def natToRevDigits (n : Nat) : List Char := natToRevDigitsAux n n

/-- Decimal printing of a natural number, as JavaScript template substitution
of a number value performs it. -/
def printNat (n : Nat) : List Char :=
  if n = 0 then ['0'] else (natToRevDigits n).reverse

/-- Numeric value of a digit character. -/
def digitVal (c : Char) : Nat := c.toNat - 48

/-- Accumulating decimal reading of a digit string, as JavaScript `Number`
reads the digits captured by the duration regex. -/
def digitsFold (a : Nat) (l : List Char) : Nat :=
  l.foldl (fun acc c => 10 * acc + digitVal c) a

/-- One optional regex group `(\d+u)?`: greedily take leading digits; the
group matches only when at least one digit is present and the following
character is the unit. On a non-match nothing is consumed (the digits are
left for a later group, exactly as regex backtracking would). -/
def parseOpt (u : Char) (cs : List Char) : Option Nat × List Char :=
  match cs.takeWhile Char.isDigit, cs.dropWhile Char.isDigit with
  | [], _ => (none, cs)
  | _ :: _, [] => (none, cs)
  | d :: ds, r :: rest =>
    if r = u then (some (digitsFold 0 (d :: ds)), rest) else (none, cs)

/-- The source's `parseNaturalLanguageDuration`, against the anchored regex
`(\d+w)?(\d+d)?(\d+h)?(\d+m)?(\d+s)?`. JavaScript `Date` arithmetic is
modelled as second arithmetic on `now`; the result is the computed timestamp
(`none` models the `undefined` returned when no group matched or the string
does not match). -/
def parseNaturalLanguageDuration (now : Int) (duration : String) : Option Int :=
  let (w, cs1) := parseOpt 'w' duration.data
  let (d, cs2) := parseOpt 'd' cs1
  let (h, cs3) := parseOpt 'h' cs2
  let (m, cs4) := parseOpt 'm' cs3
  let (s, cs5) := parseOpt 's' cs4
  if cs5 = [] then
    if w.isSome || d.isSome || h.isSome || m.isSome || s.isSome then
      some (now + 604800 * (w.getD 0 : Int) + 86400 * (d.getD 0 : Int)
                + 3600 * (h.getD 0 : Int) + 60 * (m.getD 0 : Int) + (s.getD 0 : Int))
    else none
  else none

/-- One `<value><unit>` component of `stringifyDuration`, present only when
the value is non-zero (the source filters zero-valued units). -/
def durationComponent (v : Nat) (u : Char) : List Char :=
  if v = 0 then [] else printNat v ++ [u]

/-- The concatenated representation of a list of `(value, unit)` duration
components, zero-valued components elided. -/
def reprUnits : List (Nat × Char) → List Char
  | [] => []
  | p :: l => durationComponent p.1 p.2 ++ reprUnits l

/-- The source's `stringifyDuration`: `none` for non-positive seconds,
otherwise the non-zero `w d h m s` components of the floor-div/mod
decomposition concatenated in that fixed order. -/
def stringifyDuration (seconds : Int) : Option String :=
  if seconds ≤ 0 then none
  else
    let n := seconds.toNat
    some (String.mk
      (durationComponent (n / 604800) 'w' ++
       durationComponent (n % 604800 / 86400) 'd' ++
       durationComponent (n % 86400 / 3600) 'h' ++
       durationComponent (n % 3600 / 60) 'm' ++
       durationComponent (n % 60) 's'))

/-- The source's `parseDelay`. `jsDateParse` is the host JavaScript
`new Date(string)` parser (`none` models an invalid date), an input of the
model since its semantics live outside the repository. A `Date` argument is
returned unchanged; the empty string is falsy and elided. -/
def parseDelay (jsDateParse : String → Option Int) (now : Int)
    (value : Option DelayValue) : Option Int :=
  match value with
  | none => none
  | some (.date d) => some d
  | some (.str s) =>
    if s = "" then none
    else
      match jsDateParse s with
      | some t => if t ≤ now then none else some t
      | none => parseNaturalLanguageDuration now s

/-! ### Packets -/

/-- The source's `#createPayloadPacket`. -/
def createPayloadPacket (payload : PayloadValue) (payloadType : String) : IOPacket :=
  if payloadType = "application/json" then
    { data := payload.jsonStringified, dataType := "application/json" }
  else
    match payload.asString with
    | some s => { data := some s, dataType := payloadType }
    | none => { dataType := payloadType }

/-- Modelled from the spec: `packetRequiresOffloading` (imported from
`@trigger.dev/core/v3`, not part of the repository slice). Returns
`(needsOffloading, size)` where `size` is the serialized size of the inline
data (modelled as its length) and offloading is needed when it exceeds the
threshold. -/
def packetRequiresOffloading (packet : IOPacket) (threshold : Nat) : Bool × Nat :=
  match packet.data with
  | none => (false, 0)
  | some d => (decide (d.length > threshold), d.length)

/-- The source's `#handlePayloadPacket`, returning the resulting packet and
the recorded object-store upload effects. -/
def handlePayloadPacket (payload : PayloadValue) (payloadType : String)
    (pathBase : String) (threshold : Nat) : IOPacket × List Effect :=
  let packet := createPayloadPacket payload payloadType
  match packet.data with
  | none => (packet, [])
  | some d =>
    if (packetRequiresOffloading packet threshold).1 then
      let filename := pathBase ++ "/payload.json"
      ({ data := some filename, dataType := "application/store" },
       [.uploadToObjectStore filename d packet.dataType])
    else (packet, [])

/-- Modelled from the spec: `handleMetadataPacket` (imported from
`~/utils/packets`, not part of the repository slice). Spec section 4.5:
metadata follows the same packet discipline, never offloaded. -/
def handleMetadataPacket (metadata : PayloadValue) (metadataType : String) : IOPacket :=
  createPayloadPacket metadata metadataType

/-! ### Queue name -/

/-- Characters legal in a sanitized queue name. -/
def queueNameLegalChar (c : Char) : Bool :=
  (('a' ≤ c) && (c ≤ 'z')) || c.isDigit || c == '/' || c == '_' || c == '-'

/-- Collapses runs of consecutive underscores to one. -/
def collapseUnderscores : List Char → List Char
  | [] => []
  | [c] => [c]
  | c₁ :: c₂ :: rest =>
    if c₁ = '_' && c₂ = '_' then collapseUnderscores (c₂ :: rest)
    else c₁ :: collapseUnderscores (c₂ :: rest)

/-- Modelled from the spec: `sanitizeQueueName` (imported from
`~/v3/marqs/index.server`, not part of the repository slice). Spec section
4.6: lowercase, replace characters outside `[a-z0-9/_-]` with `_`, collapse
repeats. -/
def sanitizeQueueName (name : String) : String :=
  String.mk (collapseUnderscores
    ((name.data.map Char.toLower).map (fun c => if queueNameLegalChar c then c else '_')))

/-- The source's `#getQueueName`. A provided non-empty queue name wins;
otherwise the current worker's task `queueConfig` name, with fallback to
`task/<taskId>` whenever the worker, the task, the config parse or the name
is missing. `findCurrentWorkerFromEnvironment` is modelled as the
`currentWorker` field of the database state. -/
def getQueueName (db : Db) (taskId : String) (queueName : Option String) : String :=
  let defaultQueueName := "task/" ++ taskId
  match queueName with
  | some q =>
    if q = "" then
      match db.currentWorker with
      | none => defaultQueueName
      | some worker =>
        match db.workerTaskBySlug worker.id taskId with
        | none => defaultQueueName
        | some task =>
          match task.queueConfigParsed with
          | none => defaultQueueName
          | some nameOpt => nameOpt.getD defaultQueueName
    else q
  | none =>
    match db.currentWorker with
    | none => defaultQueueName
    | some worker =>
      match db.workerTaskBySlug worker.id taskId with
      | none => defaultQueueName
      | some task =>
        match task.queueConfigParsed with
        | none => defaultQueueName
        | some nameOpt => nameOpt.getD defaultQueueName

/-! ### The call pipeline -/

/-- Body options with the `?? {}` default applied (`body.options?.x`). -/
def optsOf (inp : CallInputs) : BodyOptions :=
  inp.body.options.getD {}

/-- The effective idempotency key
(`options.idempotencyKey ?? body.options?.idempotencyKey`). -/
def effKey (inp : CallInputs) : Option String :=
  match inp.options.idempotencyKey with
  | some k => some k
  | none => (optsOf inp).idempotencyKey

/-- The idempotency gate lookup. An empty-string key is falsy in the source
(`idempotencyKey ? ... : undefined`), so no lookup happens for it. -/
def idemHit (db : Db) (inp : CallInputs) : Option ExistingRun :=
  match effKey inp with
  | some k =>
    if k = "" then none
    else db.runByIdem inp.environment.id inp.taskId k
  | none => none

/-- The `ttl` normalization of the source: a numeric ttl is stringified, a
string passes through, an absent ttl defaults to `"10m"` in development. -/
def computeTtl (ttl : Option TtlValue) (envType : EnvironmentType) : Option String :=
  match ttl with
  | some (.num n) => stringifyDuration n
  | some (.str s) => some s
  | none => if envType = .DEVELOPMENT then some "10m" else none

/-- The entitlement fetch effect: skipped entirely in development. -/
def entitlementEffects (env : AuthenticatedEnvironment) : List Effect :=
  if env.type = .DEVELOPMENT then [] else [.entitlementCheck env.organizationId]

/-- Whether the entitlement reply denies access
(`result && result.hasAccess === false`). -/
def entitlementDenied (db : Db) (env : AuthenticatedEnvironment) : Bool :=
  if env.type = .DEVELOPMENT then false
  else
    match db.entitlement env.organizationId with
    | some e => !e.hasAccess
    | none => false

/-- Whether the tag-count validation fires: only a non-string tags value
longer than `MAX_TAGS_PER_RUN` is rejected. -/
def tagsTooMany (o : BodyOptions) : Bool :=
  match o.tags with
  | some (.many ts) => decide (ts.length > MAX_TAGS_PER_RUN)
  | _ => false

/-- Number of requested tags named by the validation message. -/
def tagsRequested (o : BodyOptions) : Nat :=
  match o.tags with
  | some (.many ts) => ts.length
  | _ => 0

/-- The tag-count validation message. -/
def tagsMessage (o : BodyOptions) : String :=
  "Runs can only have " ++ toString MAX_TAGS_PER_RUN ++
    " tags, you're trying to set " ++ toString (tagsRequested o) ++ "."

/-- The payload packet handling of the call (source line 109). -/
def payloadResult (ext : Externals) (inp : CallInputs) : IOPacket × List Effect :=
  handlePayloadPacket inp.body.payload ((optsOf inp).payloadType.getD "application/json")
    ext.runFriendlyId ext.offloadThreshold

/-- The loaded `dependentAttempt` record. -/
def depAttempt (db : Db) (inp : CallInputs) : Option TaskRunAttempt :=
  (optsOf inp).dependentAttempt.bind db.attemptByFriendly

/-- The loaded `parentAttempt` record. -/
def parAttempt (db : Db) (inp : CallInputs) : Option TaskRunAttempt :=
  (optsOf inp).parentAttempt.bind db.attemptByFriendly

/-- The loaded `dependentBatch` record. -/
def depBatch (db : Db) (inp : CallInputs) : Option BatchTaskRun :=
  (optsOf inp).dependentBatch.bind db.batchByFriendly

/-- The loaded `parentBatch` record. -/
def parBatch (db : Db) (inp : CallInputs) : Option BatchTaskRun :=
  (optsOf inp).parentBatch.bind db.batchByFriendly

/-- Whether the loaded dependent attempt or its run is terminal. -/
def dependentAttemptTerminal (db : Db) (inp : CallInputs) : Bool :=
  match depAttempt db inp with
  | some a => isFinalAttemptStatus a.status || isFinalRunStatus a.taskRun.status
  | none => false

/-- Whether the loaded dependent batch carries a terminal dependent attempt. -/
def dependentBatchTerminal (db : Db) (inp : CallInputs) : Bool :=
  match (depBatch db inp).bind (fun b => b.dependentTaskAttempt) with
  | some a => isFinalAttemptStatus a.status || isFinalRunStatus a.taskRun.status
  | none => false

/-- Validation message for a terminal attempt. -/
def attemptTerminalMessage (taskId status : String) : String :=
  "Cannot trigger " ++ taskId ++ " as the parent attempt has a status of " ++ status

/-- Validation message for a terminal run. -/
def runTerminalMessage (taskId status : String) : String :=
  "Cannot trigger " ++ taskId ++ " as the parent run has a status of " ++ status

/-- The message thrown for a terminal dependent attempt. -/
def dependentAttemptMessage (db : Db) (inp : CallInputs) : String :=
  match depAttempt db inp with
  | some a =>
    if isFinalAttemptStatus a.status then attemptTerminalMessage inp.taskId a.status
    else runTerminalMessage inp.taskId a.taskRun.status
  | none => ""

/-- The message thrown for a terminal dependent-batch attempt. -/
def dependentBatchMessage (db : Db) (inp : CallInputs) : String :=
  match (depBatch db inp).bind (fun b => b.dependentTaskAttempt) with
  | some a =>
    if isFinalAttemptStatus a.status then attemptTerminalMessage inp.taskId a.status
    else runTerminalMessage inp.taskId a.taskRun.status
  | none => ""

/-- The `autoIncrementCounter` key of the call site. -/
def counterKey (env : AuthenticatedEnvironment) (taskId : String) : String :=
  "v3-run:" ++ env.id ++ ":" ++ taskId

/-- Modelled from the spec: the run number produced by
`autoIncrementCounter.incrementInTransaction` (the service lives outside the
repository slice). Spec section 4.7: the callback receives
`num = lastNumber + 1`; the `deriveInitial` callback, which reads
`taskRunNumberCounter.lastNumber`, seeds a missing counter row. -/
def runNumber (db : Db) (env : AuthenticatedEnvironment) (taskId : String) : Nat :=
  match db.autoCounterLast (counterKey env taskId) with
  | some l => l + 1
  | none => (db.counterLastNumber taskId env.id).getD 0 + 1

/-- The lifting of the `tags` value at the tag-upsert site
(`typeof body.options?.tags === "string" ? [body.options.tags] : body.options?.tags`). -/
def bodyTagsOf (o : BodyOptions) : List String :=
  match o.tags with
  | some (.single t) => [t]
  | some (.many ts) => ts
  | none => []

/-- The `createTag` upsert effects, one per tag string. -/
def tagEffects (env : AuthenticatedEnvironment) (o : BodyOptions) : List Effect :=
  (bodyTagsOf o).map (fun t => .createTag t env.projectId)

/-- The collected tag ids (a `null` upsert reply contributes nothing). -/
def tagIds (db : Db) (env : AuthenticatedEnvironment) (o : BodyOptions) : List String :=
  (bodyTagsOf o).filterMap (fun t => db.tagRecord t env.projectId)

/-- The `depth` derivation of the source (lines 308 to 314). -/
def depthOf (db : Db) (inp : CallInputs) : Nat :=
  match depAttempt db inp with
  | some a => a.taskRun.depth + 1
  | none =>
    match parAttempt db inp with
    | some a => a.taskRun.depth + 1
    | none =>
      match (depBatch db inp).bind (fun b => b.dependentTaskAttempt) with
      | some a => a.taskRun.depth + 1
      | none => 0

/-- The sanitized queue name with the empty-string fallback of the source. -/
def queueNameResolved (db : Db) (taskId : String) (o : BodyOptions) : String :=
  let q := sanitizeQueueName (getQueueName db taskId (o.queue.bind (fun qo => qo.name)))
  if q = "" then sanitizeQueueName ("task/" ++ taskId) else q

/-- The fully assembled run shape handed to `engine.trigger` on the success
path (source lines 319 to 357). -/
def buildRun (db : Db) (ext : Externals) (inp : CallInputs) : TaskRunShape :=
  let o := optsOf inp
  let env := inp.environment
  let pp := (payloadResult ext inp).1
  let mp := o.metadata.map (fun m => handleMetadataPacket m (o.metadataType.getD "application/json"))
  let da := depAttempt db inp
  let pa := parAttempt db inp
  let dbr := depBatch db inp
  let pbr := parBatch db inp
  let delayUntil := parseDelay ext.jsDateParse ext.now o.delay
  { number := runNumber db env inp.taskId
    friendlyId := ext.runFriendlyId
    idempotencyKey := effKey inp
    taskIdentifier := inp.taskId
    payload := pp.data.getD ""
    payloadType := pp.dataType
    traceId := ext.traceId
    spanId := ext.spanId
    parentSpanId :=
      if inp.options.parentAsLinkType = some .replay then none else ext.traceparentSpanId
    lockedToVersionId :=
      (o.lockToVersion.bind (db.workerByVersion env.projectId env.id)).map (fun w => w.id)
    concurrencyKey := o.concurrencyKey
    queueName := queueNameResolved db inp.taskId o
    masterQueue := "main"
    isTest := o.test.getD false
    delayUntil := delayUntil
    queuedAt := match delayUntil with | some _ => none | none => some ext.now
    maxAttempts := o.maxAttempts
    ttl := computeTtl o.ttl env.type
    tags := tagIds db env o
    parentTaskRunId := pa.map (fun p => p.taskRun.id)
    rootTaskRunId := pa.map (fun p => p.taskRun.rootTaskRunId.getD p.taskRun.id)
    batchId := match dbr with | some b => some b.id | none => pbr.map (fun b => b.id)
    resumeParentOnCompletion := da.isSome || dbr.isSome
    depth := depthOf db inp
    metadata := mp.bind (fun p => p.data)
    metadataType := mp.map (fun p => p.dataType)
    seedMetadata := mp.bind (fun p => p.data)
    seedMetadataType := mp.map (fun p => p.dataType) }

/-- The embedding of `TriggerTaskServiceV2.call`: the pipeline of the
idempotency gate, the entitlement check, the tag-count validation, payload
packet handling, dependency loading with terminal gating, and the traced
counter envelope around `engine.trigger`, together with the ordered list of
side-effectful collaborator invocations. -/
def call (db : Db) (ext : Externals) (inp : CallInputs) :
    Except CallError CallOutcome × List Effect :=
  match idemHit db inp with
  | some run => (.ok (.existing run), [])
  | none =>
    if entitlementDenied db inp.environment then
      (.error .outOfEntitlement, entitlementEffects inp.environment)
    else if tagsTooMany (optsOf inp) then
      (.error (.serviceValidation (tagsMessage (optsOf inp))),
       entitlementEffects inp.environment)
    else if dependentAttemptTerminal db inp then
      (.error (.serviceValidation (dependentAttemptMessage db inp)),
       entitlementEffects inp.environment ++ (payloadResult ext inp).2)
    else if dependentBatchTerminal db inp then
      (.error (.serviceValidation (dependentBatchMessage db inp)),
       entitlementEffects inp.environment ++ (payloadResult ext inp).2)
    else
      (.ok (.created (buildRun db ext inp)),
       entitlementEffects inp.environment ++ (payloadResult ext inp).2
         ++ [.traceEvent inp.taskId,
             .counterIncrement (counterKey inp.environment inp.taskId)]
         ++ tagEffects inp.environment (optsOf inp)
         ++ [.engineTrigger ext.runFriendlyId])

/-! ### The serialized counter primitive -/

/-- Modelled from the spec: the per-key counter state of the
`autoIncrementCounter` service (outside the repository slice). -/
structure CounterState where
  last : String → Option Nat

/-- Modelled from the spec: one serialized `incrementInTransaction` call for
a key. Spec section 5: the callback observes `num = lastNumber + 1` and the
counter row commits to that value atomically; a missing row is seeded from
the `deriveInitial` result. -/
def incrementInTransaction (key : String) (seed : Option Nat) (st : CounterState) :
    Nat × CounterState :=
  let base := match st.last key with | some l => l | none => seed.getD 0
  (base + 1, ⟨fun k => if k = key then some (base + 1) else st.last k⟩)

/-- The numbers handed out by `n` serialized calls on the same key (spec
section 5 requires concurrent callers on one key to be serialized, so any
concurrent execution is one of these sequential orders), with the final
counter state. -/
def runNumbersFrom (key : String) (seed : Option Nat) (st : CounterState) :
    Nat → List Nat × CounterState
  | 0 => ([], st)
  | n + 1 =>
    let (num, st') := incrementInTransaction key seed st
    let (rest, stF) := runNumbersFrom key seed st' n
    (num :: rest, stF)

/-! ### Classification helpers and concrete instances -/

/-- Effects that persist state: database writes (tag upserts, the counter
bump) and the engine hand-off that inserts the run row. -/
def isPersistentEffect : Effect → Bool
  | .createTag _ _ => true
  | .counterIncrement _ => true
  | .engineTrigger _ => true
  | _ => false

/-- Extracts the `resumeParentOnCompletion` flag of a created run. -/
def createdResume (res : Except CallError CallOutcome) : Option Bool :=
  match res with
  | .ok (.created r) => some r.resumeParentOnCompletion
  | _ => none

/-- A database state in which every lookup misses. -/
def db0 : Db where
  runByIdem := fun _ _ _ => none
  attemptByFriendly := fun _ => none
  batchByFriendly := fun _ => none
  workerByVersion := fun _ _ _ => none
  currentWorker := none
  workerTaskBySlug := fun _ _ => none
  counterLastNumber := fun _ _ => none
  autoCounterLast := fun _ => none
  entitlement := fun _ => none
  tagRecord := fun _ _ => none

/-- Baseline external inputs. -/
def ext0 : Externals where
  now := 1000
  jsDateParse := fun _ => none
  runFriendlyId := "run_w"
  traceId := "tr"
  spanId := "sp"
  traceparentSpanId := none
  offloadThreshold := 1024

/-- External inputs with a one-byte offload threshold. -/
def extSmall : Externals := { ext0 with offloadThreshold := 1 }

/-- A production environment. -/
def env0 : AuthenticatedEnvironment where
  id := "env_1"
  type := .PRODUCTION
  projectId := "proj_1"
  organizationId := "org_1"

/-- A small JSON payload. -/
def payload0 : PayloadValue := { asString := none, jsonStringified := some "{}" }

/-- A request body with the small payload and no options. -/
def body0 : TriggerTaskRequestBody := { payload := payload0 }

/-- An existing run row for the idempotency gate. -/
def run0 : ExistingRun := { id := "run_db_id", friendlyId := "run_prior" }

/-- An attempt in the terminal status FAILED. -/
def attF : TaskRunAttempt where
  status := "FAILED"
  taskRun :=
    { id := "tr_parent", status := "EXECUTING", taskIdentifier := "parent-task"
      rootTaskRunId := none, depth := 2 }

/-- A non-terminal parent attempt whose run sits at depth 4. -/
def attP : TaskRunAttempt where
  status := "EXECUTING"
  taskRun :=
    { id := "tr_par", status := "EXECUTING", taskIdentifier := "parent-task"
      rootTaskRunId := none, depth := 4 }

/-- Database state resolving `att_f` to the FAILED attempt. -/
def dbAttF : Db :=
  { db0 with attemptByFriendly := fun f => if f = "att_f" then some attF else none }

/-- Database state resolving `att_p` to the running parent attempt. -/
def dbAttP : Db :=
  { db0 with attemptByFriendly := fun f => if f = "att_p" then some attP else none }

/-- Database state holding a run under the idempotency key `abc`. -/
def dbIdem : Db :=
  { db0 with
    runByIdem := fun e t k =>
      if e = "env_1" ∧ t = "my-task" ∧ k = "abc" then some run0 else none }

/-- Inputs carrying the idempotency key `abc` in the service options. -/
def c1Inp : CallInputs where
  taskId := "my-task"
  environment := env0
  body := body0
  options := { idempotencyKey := some "abc" }

/-- Inputs with a two-character payload and a dependent attempt reference to
the FAILED attempt. -/
def c3Inp : CallInputs where
  taskId := "my-task"
  environment := env0
  body :=
    { payload := { asString := none, jsonStringified := some "ab" }
      options := some { dependentAttempt := some "att_f" } }

/-- Inputs with a small payload and a dependent attempt reference to the
FAILED attempt. -/
def c4Inp : CallInputs where
  taskId := "my-task"
  environment := env0
  body := { payload := payload0, options := some { dependentAttempt := some "att_f" } }

/-- Inputs referencing the running parent attempt. -/
def c5Inp : CallInputs where
  taskId := "my-task"
  environment := env0
  body := { payload := payload0, options := some { parentAttempt := some "att_p" } }

/-- Inputs requesting nine tags. -/
def c6Inp : CallInputs where
  taskId := "my-task"
  environment := env0
  body :=
    { payload := payload0
      options := some
        { tags := some (.many ["t1", "t2", "t3", "t4", "t5", "t6", "t7", "t8", "t9"]) } }

/-- Inputs with a dependent attempt reference that resolves to no record. -/
def c8Inp : CallInputs where
  taskId := "my-task"
  environment := env0
  body := { payload := payload0, options := some { dependentAttempt := some "att_x" } }

/-- Inputs with a two-character payload and no references. -/
def inpOff : CallInputs where
  taskId := "my-task"
  environment := env0
  body := { payload := { asString := none, jsonStringified := some "ab" } }

/-- Inputs with a numeric non-positive ttl in a development environment. -/
def c10Inp : CallInputs where
  taskId := "my-task"
  environment := { env0 with type := .DEVELOPMENT }
  body := { payload := payload0, options := some { ttl := some (.num (-7)) } }

/-- A counter state holding 5 for one key. -/
def c2St : CounterState := ⟨fun k => if k = "v3-run:env_1:my-task" then some 5 else none⟩

/-! ### Shared lemmas -/

/-- On the success path the created run is exactly `buildRun`. -/
theorem call_created_run_eq {db : Db} {ext : Externals} {inp : CallInputs}
    {r : TaskRunShape} {effs : List Effect}
    (h : call db ext inp = (.ok (.created r), effs)) : r = buildRun db ext inp := by
  unfold call at h
  split at h
  · simp at h
  · split at h
    · simp at h
    · split at h
      · simp at h
      · split at h
        · simp at h
        · split at h
          · simp at h
          · simp only [Prod.mk.injEq, Except.ok.injEq, CallOutcome.created.injEq] at h
            exact h.1.symm

/-- The entitlement fetch is not a persistent effect. -/
theorem entitlementEffects_not_persistent (env : AuthenticatedEnvironment) :
    (entitlementEffects env).all (fun e => !isPersistentEffect e) = true := by
  unfold entitlementEffects
  split <;> rfl

/-- Payload handling records at most an upload, never a persistent effect. -/
theorem payloadResult_not_persistent (ext : Externals) (inp : CallInputs) :
    ((payloadResult ext inp).2).all (fun e => !isPersistentEffect e) = true := by
  unfold payloadResult handlePayloadPacket
  simp only []
  split
  · rfl
  · split
    · rfl
    · rfl

/-! ### Claim theorems -/

/-- C1: a call whose effective idempotency key (service options key, else
body options key) already names a run for `(environmentId, taskIdentifier,
idempotencyKey)` returns that existing run with an empty effect list, so the
entitlement collaborator, the tracing envelope and `engine.trigger` are all
not invoked. -/
theorem idempotency_hit_short_circuits (db : Db) (ext : Externals) (inp : CallInputs)
    (k : String) (run : ExistingRun)
    (hk : effKey inp = some k) (hne : k ≠ "")
    (hrun : db.runByIdem inp.environment.id inp.taskId k = some run) :
    call db ext inp = (.ok (.existing run), []) := by
  have hhit : idemHit db inp = some run := by
    unfold idemHit
    rw [hk]
    simp [hne, hrun]
  unfold call
  rw [hhit]

/-- C1 witness: with the key `abc` held by the service options and a stored
run for `(env_1, my-task, abc)`, the call returns the stored run and records
no effect. -/
theorem idempotency_hit_short_circuits_witness :
    call dbIdem ext0 c1Inp = (.ok (.existing run0), []) :=
  idempotency_hit_short_circuits dbIdem ext0 c1Inp "abc" run0 rfl (by decide) rfl

/-- C5: the depth of a created run is the dependent attempt's run depth plus
one, else the parent attempt's run depth plus one, else the dependent batch
attempt's run depth plus one, else zero; in particular a run created with
only a `parentBatch` reference has depth zero. -/
theorem created_run_depth (db : Db) (ext : Externals) (inp : CallInputs)
    (r : TaskRunShape) (effs : List Effect)
    (h : call db ext inp = (.ok (.created r), effs)) :
    r.depth =
      (match depAttempt db inp with
       | some a => a.taskRun.depth + 1
       | none =>
         match parAttempt db inp with
         | some a => a.taskRun.depth + 1
         | none =>
           match (depBatch db inp).bind (fun b => b.dependentTaskAttempt) with
           | some a => a.taskRun.depth + 1
           | none => 0) ∧
    (((optsOf inp).parentBatch).isSome = true → depAttempt db inp = none →
      parAttempt db inp = none →
      (depBatch db inp).bind (fun b => b.dependentTaskAttempt) = none →
      r.depth = 0) := by
  have hr := call_created_run_eq h
  subst hr
  constructor
  · rfl
  · intro _ h1 h2 h3
    show depthOf db inp = 0
    unfold depthOf
    rw [h1, h2, h3]

/-- C5 witness: a run created with only a running parent attempt at depth 4
gets depth 5. -/
theorem created_run_depth_witness : (buildRun dbAttP ext0 c5Inp).depth = 5 := by
  have h := (created_run_depth dbAttP ext0 c5Inp (buildRun dbAttP ext0 c5Inp)
    (call dbAttP ext0 c5Inp).2 rfl).1
  rw [h]; rfl

/-- C8 counterexample: a request that carries a `dependentAttempt` reference
which resolves to no attempt record still creates a run, and that run has
`resumeParentOnCompletion = false`, refuting the claim that presence of the
reference in the request suffices. -/
theorem resume_parent_counterexample :
    ((optsOf c8Inp).dependentAttempt).isSome = true ∧
    createdResume (call db0 ext0 c8Inp).1 = some false := ⟨rfl, rfl⟩

/-- C8 amended: the created run's `resumeParentOnCompletion` is true exactly
when the `dependentAttempt` or the `dependentBatch` reference resolved to an
existing record. -/
theorem created_run_resume_parent (db : Db) (ext : Externals) (inp : CallInputs)
    (r : TaskRunShape) (effs : List Effect)
    (h : call db ext inp = (.ok (.created r), effs)) :
    r.resumeParentOnCompletion = ((depAttempt db inp).isSome || (depBatch db inp).isSome) := by
  have hr := call_created_run_eq h
  subst hr
  rfl

/-- C8 amended witness: with no dependent references at all the created run
has `resumeParentOnCompletion = false`. -/
theorem created_run_resume_parent_witness :
    (buildRun db0 ext0 inpOff).resumeParentOnCompletion =
      ((depAttempt db0 inpOff).isSome || (depBatch db0 inpOff).isSome) :=
  created_run_resume_parent db0 ext0 inpOff (buildRun db0 ext0 inpOff)
    (call db0 ext0 inpOff).2 rfl

/-- C10: a present numeric ttl that is non-positive stringifies to nothing
(`stringifyDuration` yields `none`), the normalization yields no ttl for any
environment type including development, and a created run of such a request
carries no ttl. -/
theorem nonpositive_numeric_ttl (t : Int) (ht : t ≤ 0) :
    stringifyDuration t = none ∧
    (∀ envType : EnvironmentType, computeTtl (some (.num t)) envType = none) ∧
    (∀ (db : Db) (ext : Externals) (inp : CallInputs) (r : TaskRunShape)
        (effs : List Effect),
      (optsOf inp).ttl = some (.num t) →
      call db ext inp = (.ok (.created r), effs) → r.ttl = none) := by
  have hs : stringifyDuration t = none := by
    unfold stringifyDuration
    rw [if_pos ht]
  refine ⟨hs, fun _ => by simp [computeTtl, hs], ?_⟩
  intro db ext inp r effs httl h
  have hr := call_created_run_eq h
  subst hr
  show computeTtl (optsOf inp).ttl inp.environment.type = none
  rw [httl]
  simp [computeTtl, hs]

/-- C10 witness: a ttl of `-7` seconds normalizes to no ttl even in a
development environment, where the created run indeed carries no ttl. -/
theorem nonpositive_numeric_ttl_witness :
    computeTtl (some (.num (-7))) .DEVELOPMENT = none ∧
    (buildRun db0 ext0 c10Inp).ttl = none := by
  refine ⟨(nonpositive_numeric_ttl (-7) (by norm_num)).2.1 .DEVELOPMENT, ?_⟩
  exact (nonpositive_numeric_ttl (-7) (by norm_num)).2.2 db0 ext0 c10Inp
    (buildRun db0 ext0 c10Inp) (call db0 ext0 c10Inp).2 rfl rfl

/-- C3 counterexample: a call whose payload is offloaded and whose dependent
attempt is terminal fails with the validation error, yet the object-store
upload has already happened: the failing call does have an externally
visible side effect. -/
theorem failure_upload_counterexample :
    (call dbAttF extSmall c3Inp).1 =
      .error (.serviceValidation
        "Cannot trigger my-task as the parent attempt has a status of FAILED") ∧
    Effect.uploadToObjectStore "run_w/payload.json" "ab" "application/json"
      ∈ (call dbAttF extSmall c3Inp).2 := by
  have h2 : (call dbAttF extSmall c3Inp).2 =
      [Effect.entitlementCheck "org_1",
       Effect.uploadToObjectStore "run_w/payload.json" "ab" "application/json"] := rfl
  exact ⟨rfl, by rw [h2]; simp⟩

/-- C3 amended: a call that fails before the persisted run creator performs
no database write and no engine call (no tag upsert, no counter bump, no
`engine.trigger`); an object-store upload may however already have happened,
since payload offloading precedes dependency validation. -/
theorem failing_call_no_persistent_effects (db : Db) (ext : Externals) (inp : CallInputs)
    (err : CallError) (effs : List Effect)
    (h : call db ext inp = (.error err, effs)) :
    effs.all (fun e => !isPersistentEffect e) = true := by
  unfold call at h
  split at h
  · simp at h
  · split at h
    · simp only [Prod.mk.injEq] at h
      rw [← h.2]
      exact entitlementEffects_not_persistent _
    · split at h
      · simp only [Prod.mk.injEq] at h
        rw [← h.2]
        exact entitlementEffects_not_persistent _
      · split at h
        · simp only [Prod.mk.injEq] at h
          rw [← h.2]
          simp [List.all_append, entitlementEffects_not_persistent,
            payloadResult_not_persistent]
        · split at h
          · simp only [Prod.mk.injEq] at h
            rw [← h.2]
            simp [List.all_append, entitlementEffects_not_persistent,
              payloadResult_not_persistent]
          · simp at h

/-- C3 amended witness: the failing call of the counterexample scenario
records no persistent effect. -/
theorem failing_call_no_persistent_effects_witness :
    ((call dbAttF extSmall c3Inp).2).all (fun e => !isPersistentEffect e) = true :=
  failing_call_no_persistent_effects dbAttF extSmall c3Inp
    (.serviceValidation
      "Cannot trigger my-task as the parent attempt has a status of FAILED")
    (call dbAttF extSmall c3Inp).2 rfl

/-- C4: once the idempotency gate, the entitlement check and the tag-count
validation pass, a dependent attempt (or a dependent batch carrying a
dependent task attempt) whose attempt status or run status is terminal makes
the call fail with the validation error naming the terminal status, and no
run is created: no persistent effect (tag write, counter bump,
`engine.trigger`) is recorded. -/
theorem dependent_terminal_rejected (db : Db) (ext : Externals) (inp : CallInputs)
    (hIdem : idemHit db inp = none)
    (hEnt : entitlementDenied db inp.environment = false)
    (hTags : tagsTooMany (optsOf inp) = false) :
    (∀ att : TaskRunAttempt, depAttempt db inp = some att →
      (isFinalAttemptStatus att.status || isFinalRunStatus att.taskRun.status) = true →
      call db ext inp =
        (.error (.serviceValidation
          (if isFinalAttemptStatus att.status then
            attemptTerminalMessage inp.taskId att.status
           else runTerminalMessage inp.taskId att.taskRun.status)),
         entitlementEffects inp.environment ++ (payloadResult ext inp).2) ∧
      ((call db ext inp).2).all (fun e => !isPersistentEffect e) = true)
    ∧
    (∀ (b : BatchTaskRun) (att : TaskRunAttempt),
      depBatch db inp = some b → b.dependentTaskAttempt = some att →
      (isFinalAttemptStatus att.status || isFinalRunStatus att.taskRun.status) = true →
      dependentAttemptTerminal db inp = false →
      call db ext inp =
        (.error (.serviceValidation
          (if isFinalAttemptStatus att.status then
            attemptTerminalMessage inp.taskId att.status
           else runTerminalMessage inp.taskId att.taskRun.status)),
         entitlementEffects inp.environment ++ (payloadResult ext inp).2) ∧
      ((call db ext inp).2).all (fun e => !isPersistentEffect e) = true) := by
  constructor
  · intro att hAtt hTerm
    have hT : dependentAttemptTerminal db inp = true := by
      unfold dependentAttemptTerminal
      rw [hAtt]
      exact hTerm
    have hMsg : dependentAttemptMessage db inp =
        (if isFinalAttemptStatus att.status then
          attemptTerminalMessage inp.taskId att.status
         else runTerminalMessage inp.taskId att.taskRun.status) := by
      unfold dependentAttemptMessage
      rw [hAtt]
    have hCall : call db ext inp =
        (.error (.serviceValidation
          (if isFinalAttemptStatus att.status then
            attemptTerminalMessage inp.taskId att.status
           else runTerminalMessage inp.taskId att.taskRun.status)),
         entitlementEffects inp.environment ++ (payloadResult ext inp).2) := by
      unfold call
      rw [hIdem]
      simp only [hEnt, hTags, hT, hMsg, Bool.false_eq_true, if_false, if_true]
    refine ⟨hCall, ?_⟩
    rw [hCall]
    simp [List.all_append, entitlementEffects_not_persistent, payloadResult_not_persistent]
  · intro b att hB hBA hTerm hDA
    have hT : dependentBatchTerminal db inp = true := by
      unfold dependentBatchTerminal
      simp only [hB, Option.some_bind, hBA]
      exact hTerm
    have hMsg : dependentBatchMessage db inp =
        (if isFinalAttemptStatus att.status then
          attemptTerminalMessage inp.taskId att.status
         else runTerminalMessage inp.taskId att.taskRun.status) := by
      unfold dependentBatchMessage
      simp only [hB, Option.some_bind, hBA]
    have hCall : call db ext inp =
        (.error (.serviceValidation
          (if isFinalAttemptStatus att.status then
            attemptTerminalMessage inp.taskId att.status
           else runTerminalMessage inp.taskId att.taskRun.status)),
         entitlementEffects inp.environment ++ (payloadResult ext inp).2) := by
      unfold call
      rw [hIdem]
      simp only [hEnt, hTags, hDA, hT, hMsg, Bool.false_eq_true, if_false, if_true]
    refine ⟨hCall, ?_⟩
    rw [hCall]
    simp [List.all_append, entitlementEffects_not_persistent, payloadResult_not_persistent]

/-- C4 witness: a dependent attempt reference resolving to a FAILED attempt
makes the call fail with the message naming FAILED, recording only the
entitlement fetch. -/
theorem dependent_terminal_rejected_witness :
    call dbAttF ext0 c4Inp =
      (.error (.serviceValidation
        "Cannot trigger my-task as the parent attempt has a status of FAILED"),
       [Effect.entitlementCheck "org_1"]) := by
  have h := ((dependent_terminal_rejected dbAttF ext0 c4Inp rfl rfl rfl).1
    attF rfl (by decide)).1
  exact h.trans rfl

/-- C6: once the idempotency gate and the entitlement check pass, a tags
sequence longer than `MAX_TAGS_PER_RUN = 8` fails the call with the
validation message naming the limit 8 and the requested count, nothing
persistent happens, and a single string tag is lifted to a one-element
sequence at the upsert site. -/
theorem tags_limit_enforced (db : Db) (ext : Externals) (inp : CallInputs)
    (ts : List String)
    (hIdem : idemHit db inp = none)
    (hEnt : entitlementDenied db inp.environment = false)
    (hTags : (optsOf inp).tags = some (.many ts))
    (hLen : ts.length > MAX_TAGS_PER_RUN) :
    call db ext inp =
      (.error (.serviceValidation
        ("Runs can only have 8 tags, you're trying to set " ++ toString ts.length ++ ".")),
       entitlementEffects inp.environment) ∧
    ((call db ext inp).2).all (fun e => !isPersistentEffect e) = true ∧
    (∀ (o : BodyOptions) (s : String), o.tags = some (.single s) → bodyTagsOf o = [s]) := by
  have hT : tagsTooMany (optsOf inp) = true := by
    unfold tagsTooMany
    rw [hTags]
    exact decide_eq_true hLen
  have hMsg : tagsMessage (optsOf inp) =
      "Runs can only have 8 tags, you're trying to set " ++ toString ts.length ++ "." := by
    unfold tagsMessage tagsRequested
    rw [hTags]
    rfl
  have hCall : call db ext inp =
      (.error (.serviceValidation
        ("Runs can only have 8 tags, you're trying to set " ++ toString ts.length ++ ".")),
       entitlementEffects inp.environment) := by
    unfold call
    rw [hIdem]
    simp only [hEnt, hT, hMsg, Bool.false_eq_true, if_false, if_true]
  refine ⟨hCall, ?_, ?_⟩
  · rw [hCall]
    exact entitlementEffects_not_persistent _
  · intro o s h
    unfold bodyTagsOf
    rw [h]

/-- C6 witness: nine tags are rejected with the message naming 8 and 9. -/
theorem tags_limit_enforced_witness :
    call db0 ext0 c6Inp =
      (.error (.serviceValidation
        "Runs can only have 8 tags, you're trying to set 9."),
       [Effect.entitlementCheck "org_1"]) := by
  have h := (tags_limit_enforced db0 ext0 c6Inp
    ["t1", "t2", "t3", "t4", "t5", "t6", "t7", "t8", "t9"] rfl rfl rfl (by decide)).1
  exact h.trans rfl

/-- C7: a payload packet with inline data is passed through unchanged when
the offload predicate reports no offloading; otherwise the data is uploaded
at `<runFriendlyId>/payload.json` under the original dataType and the
created run carries that filename as payload with payloadType
`application/store`. -/
theorem payload_offloading :
    (∀ (payload : PayloadValue) (ptype base : String) (thr : Nat) (d : String),
      (createPayloadPacket payload ptype).data = some d →
      ((packetRequiresOffloading (createPayloadPacket payload ptype) thr).1 = false →
        handlePayloadPacket payload ptype base thr = (createPayloadPacket payload ptype, [])) ∧
      ((packetRequiresOffloading (createPayloadPacket payload ptype) thr).1 = true →
        handlePayloadPacket payload ptype base thr =
          ({ data := some (base ++ "/payload.json"), dataType := "application/store" },
           [Effect.uploadToObjectStore (base ++ "/payload.json") d
             (createPayloadPacket payload ptype).dataType])))
    ∧
    (∀ (db : Db) (ext : Externals) (inp : CallInputs) (r : TaskRunShape)
        (effs : List Effect),
      call db ext inp = (.ok (.created r), effs) →
      (packetRequiresOffloading
        (createPayloadPacket inp.body.payload ((optsOf inp).payloadType.getD "application/json"))
        ext.offloadThreshold).1 = true →
      r.payload = ext.runFriendlyId ++ "/payload.json" ∧
      r.payloadType = "application/store") := by
  constructor
  · intro payload ptype base thr d hd
    constructor
    · intro hNo
      unfold handlePayloadPacket
      simp only [hd, hNo, Bool.false_eq_true, if_false]
    · intro hYes
      unfold handlePayloadPacket
      simp only [hd, hYes, if_true]
  · intro db ext inp r effs h hOff
    have hr := call_created_run_eq h
    subst hr
    obtain ⟨d, hd⟩ : ∃ d,
        (createPayloadPacket inp.body.payload
          ((optsOf inp).payloadType.getD "application/json")).data = some d := by
      cases hcd : (createPayloadPacket inp.body.payload
          ((optsOf inp).payloadType.getD "application/json")).data with
      | none =>
        unfold packetRequiresOffloading at hOff
        rw [hcd] at hOff
        simp at hOff
      | some d => exact ⟨d, rfl⟩
    have hpp : payloadResult ext inp =
        ({ data := some (ext.runFriendlyId ++ "/payload.json"),
           dataType := "application/store" },
         [Effect.uploadToObjectStore (ext.runFriendlyId ++ "/payload.json") d
           (createPayloadPacket inp.body.payload
             ((optsOf inp).payloadType.getD "application/json")).dataType]) := by
      unfold payloadResult handlePayloadPacket
      simp only [hd, hOff, if_true]
    constructor
    · show ((payloadResult ext inp).1).data.getD "" = ext.runFriendlyId ++ "/payload.json"
      rw [hpp]
      rfl
    · show ((payloadResult ext inp).1).dataType = "application/store"
      rw [hpp]

/-- C7 witness: a two-character payload over a one-byte threshold is
offloaded and the created run points at `run_w/payload.json` with payload
type `application/store`. -/
theorem payload_offloading_witness :
    (buildRun db0 extSmall inpOff).payload = "run_w/payload.json" ∧
    (buildRun db0 extSmall inpOff).payloadType = "application/store" :=
  payload_offloading.2 db0 extSmall inpOff (buildRun db0 extSmall inpOff)
    (call db0 extSmall inpOff).2 rfl (by decide)

/-- Serialized increments on one key hand out consecutive numbers and leave
the counter at the last handed-out value. -/
theorem runNumbersFrom_spec (key : String) (seed : Option Nat) :
    ∀ (N : Nat) (st : CounterState) (k : Nat), st.last key = some k →
      (runNumbersFrom key seed st N).1 = List.range' (k + 1) N ∧
      ((runNumbersFrom key seed st N).2).last key = some (k + N) := by
  intro N
  induction N with
  | zero =>
    intro st k h
    exact ⟨rfl, by simpa using h⟩
  | succ n ih =>
    intro st k h
    have hinc : incrementInTransaction key seed st =
        (k + 1, ⟨fun k2 => if k2 = key then some (k + 1) else st.last k2⟩) := by
      unfold incrementInTransaction
      rw [h]
    have hst' : (CounterState.mk
        (fun k2 => if k2 = key then some (k + 1) else st.last k2)).last key = some (k + 1) := by
      simp
    obtain ⟨ih1, ih2⟩ := ih ⟨fun k2 => if k2 = key then some (k + 1) else st.last k2⟩ (k + 1) hst'
    unfold runNumbersFrom
    rw [hinc]
    constructor
    · simp only [ih1, List.range'_succ]
    · simpa [Nat.add_assoc, Nat.add_comm 1 n] using ih2

/-- C2: on a counter whose pre-state for a key is `k`, the numbers produced
by `N` serialized `incrementInTransaction` calls are exactly the contiguous
sequence `[k+1, ..., k+N]` with no gaps and no duplicates, and the counter
row commits to `k + N`; moreover every created run's `number` is the
counter's pre-state plus one at the key `v3-run:<envId>:<taskId>`. -/
theorem counter_numbers_contiguous (key : String) (seed : Option Nat)
    (st : CounterState) (k N : Nat) (h : st.last key = some k) :
    (runNumbersFrom key seed st N).1 = List.range' (k + 1) N ∧
    ((runNumbersFrom key seed st N).1).Nodup ∧
    ((runNumbersFrom key seed st N).2).last key = some (k + N) ∧
    (∀ (db : Db) (ext : Externals) (inp : CallInputs) (r : TaskRunShape)
        (effs : List Effect) (pre : Nat),
      call db ext inp = (.ok (.created r), effs) →
      db.autoCounterLast (counterKey inp.environment inp.taskId) = some pre →
      r.number = pre + 1) := by
  obtain ⟨h1, h2⟩ := runNumbersFrom_spec key seed N st k h
  refine ⟨h1, by rw [h1]; exact List.nodup_range' _ _, h2, ?_⟩
  intro db ext inp r effs pre hc hpre
  have hr := call_created_run_eq hc
  subst hr
  show runNumber db inp.environment inp.taskId = pre + 1
  unfold runNumber
  rw [hpre]

/-- C2 witness: three serialized increments on a counter at 5 produce
`[6, 7, 8]`. -/
theorem counter_numbers_contiguous_witness :
    (runNumbersFrom "v3-run:env_1:my-task" none c2St 3).1 = List.range' 6 3 :=
  (counter_numbers_contiguous "v3-run:env_1:my-task" none c2St 5 3 rfl).1

/-! ### Duration grammar lemmas -/

/-- A digit character read back gives its value. -/
theorem digitVal_digitChar (d : Nat) (h : d < 10) : digitVal (digitChar d) = d := by
  interval_cases d <;> rfl

/-- Digit characters satisfy `Char.isDigit`. -/
theorem isDigit_digitChar (d : Nat) (h : d < 10) : (digitChar d).isDigit = true := by
  interval_cases d <;> rfl

/-- Every character produced by the digit printer is a digit. -/
theorem natToRevDigitsAux_digits :
    ∀ (fuel n : Nat), ∀ c ∈ natToRevDigitsAux fuel n, c.isDigit = true := by
  intro fuel
  induction fuel with
  | zero =>
    intro n c hc
    cases n <;> simp [natToRevDigitsAux] at hc
  | succ f ih =>
    intro n c hc
    cases n with
    | zero => simp [natToRevDigitsAux] at hc
    | succ m =>
      rw [natToRevDigitsAux] at hc
      rcases List.mem_cons.mp hc with h | h
      · subst h
        exact isDigit_digitChar _ (Nat.mod_lt _ (by omega))
      · exact ih _ c h

/-- The printer never returns an empty digit list for a positive number with
enough fuel. -/
theorem natToRevDigitsAux_ne_nil (fuel n : Nat) (h : 1 ≤ n) (hf : 1 ≤ fuel) :
    natToRevDigitsAux fuel n ≠ [] := by
  cases fuel with
  | zero => omega
  | succ f =>
    cases n with
    | zero => omega
    | succ m => simp [natToRevDigitsAux]

/-- Appending one character multiplies the accumulated value by ten. -/
theorem digitsFold_append (a : Nat) (l : List Char) (c : Char) :
    digitsFold a (l ++ [c]) = 10 * digitsFold a l + digitVal c := by
  simp [digitsFold, List.foldl_append]

/-- Reading back the reversed digit list recovers the number. -/
theorem digitsFold_natToRevDigitsAux :
    ∀ (fuel n a : Nat), n ≤ fuel →
      digitsFold a (natToRevDigitsAux fuel n).reverse =
        a * 10 ^ (natToRevDigitsAux fuel n).length + n := by
  intro fuel
  induction fuel with
  | zero =>
    intro n a h
    have : n = 0 := by omega
    subst this
    simp [natToRevDigitsAux, digitsFold]
  | succ f ih =>
    intro n a h
    cases n with
    | zero => simp [natToRevDigitsAux, digitsFold]
    | succ m =>
      rw [natToRevDigitsAux]
      have hle : (m + 1) / 10 ≤ f := by
        have hlt : (m + 1) / 10 < m + 1 := Nat.div_lt_self (Nat.succ_pos m) (by norm_num)
        omega
      have ihm := ih ((m + 1) / 10) a hle
      rw [List.reverse_cons, digitsFold_append, ihm]
      have hmod := Nat.div_add_mod (m + 1) 10
      rw [List.length_cons, digitVal_digitChar _ (Nat.mod_lt _ (by omega))]
      have hstep : 10 * (a * 10 ^ (natToRevDigitsAux f ((m + 1) / 10)).length + (m + 1) / 10)
            + (m + 1) % 10
          = a * (10 ^ (natToRevDigitsAux f ((m + 1) / 10)).length * 10)
            + (10 * ((m + 1) / 10) + (m + 1) % 10) := by ring
      rw [hstep, hmod, pow_succ]

/-- Every character of `printNat` is a digit. -/
theorem printNat_digits (n : Nat) : ∀ c ∈ printNat n, c.isDigit = true := by
  intro c hc
  unfold printNat at hc
  split at hc
  · simp at hc
    subst hc
    rfl
  · exact natToRevDigitsAux_digits n n c (List.mem_reverse.mp hc)

/-- `printNat` is never empty. -/
theorem printNat_ne_nil (n : Nat) : printNat n ≠ [] := by
  unfold printNat
  split
  · simp
  · simp only [ne_eq, List.reverse_eq_nil_iff]
    exact natToRevDigitsAux_ne_nil n n (by omega) (by omega)

/-- Reading back `printNat` recovers the number. -/
theorem digitsFold_printNat (n : Nat) : digitsFold 0 (printNat n) = n := by
  unfold printNat
  split
  · simp [digitsFold, digitVal]
    omega
  · have := digitsFold_natToRevDigitsAux n n 0 le_rfl
    simpa [natToRevDigits] using this

/-- A run of digits followed by a non-digit head is taken whole by
`takeWhile Char.isDigit`. -/
theorem takeWhile_digits_append (l rest : List Char)
    (hl : ∀ c ∈ l, c.isDigit = true)
    (hr : ∀ c, rest.head? = some c → c.isDigit = false) :
    (l ++ rest).takeWhile Char.isDigit = l := by
  induction l with
  | nil =>
    cases rest with
    | nil => rfl
    | cons c cs =>
      simp only [List.nil_append, List.takeWhile_cons, hr c rfl]
      rfl
  | cons d l ih =>
    simp only [List.cons_append, List.takeWhile_cons, hl d (List.mem_cons_self d l)]
    rw [ih (fun c hc => hl c (List.mem_cons_of_mem d hc))]
    simp

/-- The complement of the previous lemma for `dropWhile`. -/
theorem dropWhile_digits_append (l rest : List Char)
    (hl : ∀ c ∈ l, c.isDigit = true)
    (hr : ∀ c, rest.head? = some c → c.isDigit = false) :
    (l ++ rest).dropWhile Char.isDigit = rest := by
  induction l with
  | nil =>
    cases rest with
    | nil => rfl
    | cons c cs =>
      simp only [List.nil_append, List.dropWhile_cons, hr c rfl]
      rfl
  | cons d l ih =>
    simp only [List.cons_append, List.dropWhile_cons, hl d (List.mem_cons_self d l)]
    rw [ih (fun c hc => hl c (List.mem_cons_of_mem d hc))]
    simp

/-- A matching group: digits followed by the expected unit are consumed and
read back as the printed value. -/
theorem parseOpt_hit (u : Char) (n : Nat) (rest : List Char)
    (hu : u.isDigit = false) :
    parseOpt u (printNat n ++ u :: rest) = (some n, rest) := by
  have hhead : ∀ c, (u :: rest).head? = some c → c.isDigit = false := by
    intro c hc
    simp at hc
    subst hc
    exact hu
  have ht := takeWhile_digits_append (printNat n) (u :: rest) (printNat_digits n) hhead
  have hd := dropWhile_digits_append (printNat n) (u :: rest) (printNat_digits n) hhead
  unfold parseOpt
  rw [ht, hd]
  cases hp : printNat n with
  | nil => exact absurd hp (printNat_ne_nil n)
  | cons d ds =>
    simp only [eq_self_iff_true, if_true]
    rw [← hp, digitsFold_printNat]

/-- No leading digit means the group does not match and consumes nothing. -/
theorem parseOpt_miss_head (u : Char) (cs : List Char)
    (h : ∀ c, cs.head? = some c → c.isDigit = false) :
    parseOpt u cs = (none, cs) := by
  have ht : cs.takeWhile Char.isDigit = [] := by
    cases cs with
    | nil => rfl
    | cons c l =>
      simp only [List.takeWhile_cons, h c rfl]
      rfl
  unfold parseOpt
  rw [ht]

/-- Digits followed by a different unit do not match and consume nothing. -/
theorem parseOpt_miss_unit (u u' : Char) (n : Nat) (rest : List Char)
    (hne : u' ≠ u) (hu' : u'.isDigit = false) :
    parseOpt u (printNat n ++ u' :: rest) = (none, printNat n ++ u' :: rest) := by
  have hhead : ∀ c, (u' :: rest).head? = some c → c.isDigit = false := by
    intro c hc
    simp at hc
    subst hc
    exact hu'
  have ht := takeWhile_digits_append (printNat n) (u' :: rest) (printNat_digits n) hhead
  have hd := dropWhile_digits_append (printNat n) (u' :: rest) (printNat_digits n) hhead
  unfold parseOpt
  rw [ht, hd]
  cases hp : printNat n with
  | nil => exact absurd hp (printNat_ne_nil n)
  | cons d ds =>
    simp only []
    rw [if_neg hne]

/-- A group whose unit occurs nowhere in the representation does not match
and consumes nothing. -/
theorem parseOpt_skip (u : Char) :
    ∀ l : List (Nat × Char),
      (∀ p ∈ l, p.2.isDigit = false ∧ p.2 ≠ u) →
      parseOpt u (reprUnits l) = (none, reprUnits l) := by
  intro l
  induction l with
  | nil =>
    intro _
    exact parseOpt_miss_head u [] (by intro c hc; simp at hc)
  | cons p l ih =>
    intro hl
    obtain ⟨hdig, hne⟩ := hl p (List.mem_cons_self p l)
    by_cases hv : p.1 = 0
    · rw [reprUnits, durationComponent, if_pos hv, List.nil_append]
      exact ih (fun q hq => hl q (List.mem_cons_of_mem p hq))
    · rw [reprUnits, durationComponent, if_neg hv, List.append_assoc, List.singleton_append]
      exact parseOpt_miss_unit u p.2 p.1 (reprUnits l) hne hdig

/-- Parsing the leading component of a representation: a non-zero value is
consumed as a match, a zero value was elided so nothing matches, and in both
cases the rest of the representation remains. -/
theorem parseOpt_component (u : Char) (v : Nat) (l : List (Nat × Char))
    (hu : u.isDigit = false)
    (hl : ∀ p ∈ l, p.2.isDigit = false ∧ p.2 ≠ u) :
    parseOpt u (reprUnits ((v, u) :: l)) =
      ((if v = 0 then none else some v), reprUnits l) := by
  by_cases hv : v = 0
  · rw [reprUnits, durationComponent, if_pos hv, List.nil_append, if_pos hv]
    exact parseOpt_skip u l hl
  · rw [reprUnits, durationComponent, if_neg hv, List.append_assoc, List.singleton_append,
      if_neg hv]
    exact parseOpt_hit u v (reprUnits l) hu

/-- The optional group value with default zero. -/
theorem getD_ite_zero (v : Nat) :
    (((if v = 0 then none else some v) : Option Nat).getD 0) = v := by
  split <;> simp_all

/-- Whether the optional group matched. -/
theorem isSome_ite_zero (v : Nat) :
    (((if v = 0 then none else some v) : Option Nat).isSome) = decide (0 < v) := by
  split <;> simp_all
  omega

/-- The floor-div/mod decomposition used by `stringifyDuration` recomposes
to the original number of seconds. -/
theorem duration_decompose (N : Nat) :
    604800 * (N / 604800) + 86400 * (N % 604800 / 86400) + 3600 * (N % 86400 / 3600)
      + 60 * (N % 3600 / 60) + N % 60 = N := by
  have e1 : N % 604800 % 86400 = N % 86400 := Nat.mod_mod_of_dvd N (by norm_num)
  have e2 : N % 86400 % 3600 = N % 3600 := Nat.mod_mod_of_dvd N (by norm_num)
  have e3 : N % 3600 % 60 = N % 60 := Nat.mod_mod_of_dvd N (by norm_num)
  omega

/-- C9: for every positive number of seconds (in particular up to ten
weeks), stringifying to the duration grammar and parsing back yields a
timestamp exactly that many seconds after the current time. -/
theorem duration_roundtrip (n now : Int) (h1 : 1 ≤ n) (h2 : n ≤ 10 * 604800) :
    (stringifyDuration n).bind (fun s => parseNaturalLanguageDuration now s) =
      some (now + n) := by
  have hpos : ¬n ≤ 0 := by omega
  have hs : stringifyDuration n =
      some (String.mk (reprUnits
        [(n.toNat / 604800, 'w'), (n.toNat % 604800 / 86400, 'd'),
         (n.toNat % 86400 / 3600, 'h'), (n.toNat % 3600 / 60, 'm'),
         (n.toNat % 60, 's')])) := by
    unfold stringifyDuration
    rw [if_neg hpos]
    simp [reprUnits, List.append_assoc]
  rw [hs, Option.some_bind]
  have hw := parseOpt_component 'w' (n.toNat / 604800)
    [(n.toNat % 604800 / 86400, 'd'), (n.toNat % 86400 / 3600, 'h'),
     (n.toNat % 3600 / 60, 'm'), (n.toNat % 60, 's')] (by decide)
    (by
      intro p hp
      simp only [List.mem_cons, List.not_mem_nil, or_false] at hp
      rcases hp with rfl | rfl | rfl | rfl <;> exact ⟨rfl, by intro hq; simp at hq⟩)
  have hd := parseOpt_component 'd' (n.toNat % 604800 / 86400)
    [(n.toNat % 86400 / 3600, 'h'), (n.toNat % 3600 / 60, 'm'), (n.toNat % 60, 's')]
    (by decide)
    (by
      intro p hp
      simp only [List.mem_cons, List.not_mem_nil, or_false] at hp
      rcases hp with rfl | rfl | rfl <;> exact ⟨rfl, by intro hq; simp at hq⟩)
  have hh := parseOpt_component 'h' (n.toNat % 86400 / 3600)
    [(n.toNat % 3600 / 60, 'm'), (n.toNat % 60, 's')] (by decide)
    (by
      intro p hp
      simp only [List.mem_cons, List.not_mem_nil, or_false] at hp
      rcases hp with rfl | rfl <;> exact ⟨rfl, by intro hq; simp at hq⟩)
  have hm := parseOpt_component 'm' (n.toNat % 3600 / 60) [(n.toNat % 60, 's')] (by decide)
    (by
      intro p hp
      simp only [List.mem_cons, List.not_mem_nil, or_false] at hp
      rcases hp with rfl
      exact ⟨rfl, by intro hq; simp at hq⟩)
  have hsec := parseOpt_component 's' (n.toNat % 60) [] (by decide)
    (by intro p hp; simp at hp)
  unfold parseNaturalLanguageDuration
  simp only [hw, hd, hh, hm, hsec]
  have hdec := duration_decompose n.toNat
  have hsome :
      (((if n.toNat / 604800 = 0 then none else some (n.toNat / 604800)) : Option Nat).isSome
        || ((if n.toNat % 604800 / 86400 = 0 then none
             else some (n.toNat % 604800 / 86400)) : Option Nat).isSome
        || ((if n.toNat % 86400 / 3600 = 0 then none
             else some (n.toNat % 86400 / 3600)) : Option Nat).isSome
        || ((if n.toNat % 3600 / 60 = 0 then none
             else some (n.toNat % 3600 / 60)) : Option Nat).isSome
        || ((if n.toNat % 60 = 0 then none else some (n.toNat % 60)) : Option Nat).isSome)
        = true := by
    simp only [isSome_ite_zero, Bool.or_eq_true, decide_eq_true_eq]
    omega
  simp only [reprUnits, if_pos rfl, hsome, if_true, getD_ite_zero]
  congr 1
  omega

/-- C9 witness: one million seconds round-trips through the duration
grammar. -/
theorem duration_roundtrip_witness :
    (stringifyDuration 1000000).bind (fun s => parseNaturalLanguageDuration 0 s) =
      some (0 + 1000000) :=
  duration_roundtrip 1000000 0 (by norm_num) (by norm_num)

end TriggerTaskV2
